import Mathlib

/-!
Verification of the Router_Portal monitoring/alerting core.

The definitions below are a shallow embedding of the per-check bodies of the
scheduled jobs in `scheduler.py`, of `send_company_telegram_message` in
`telegram_utils.py`, and of the report-chunking caller in `app.py`.
Timestamps are modelled as integers (seconds since epoch); one tick of a job
observes a single instant `now`, matching the spec's per-tick view.  Outbound
Telegram notifications are modelled as structured events so that "exactly one
DOWN notification" and "text includes the outage duration" become countable,
inspectable facts.
-/

namespace RouterPortal

/-! ### Ping (latency) alert state machine

Embedding of the per-check body of `_scheduled_ping_job` (scheduler.py,
lines 149-245).  The mutable columns of `PingCheck` (models.py, lines 57-70)
that the job reads and writes form `PingState`.  The per-company gating
functions `should_send_company_alert` and `get_company_ping_threshold`
(telegram_utils.py) are modelled by the booleans and the threshold carried in
`AlertConfig`. -/

structure PingState where
  lastRttMs : Option Nat
  lastCheckedAt : Option Int
  consecutiveFailures : Nat
  alerted : Bool
  downStartAt : Option Int
deriving Repr, DecidableEq

/-- Default column values of a freshly created `PingCheck` row
(models.py, lines 66-70). -/
def initialPingState : PingState :=
  { lastRttMs := none, lastCheckedAt := none, consecutiveFailures := 0,
    alerted := false, downStartAt := none }

/-- Per-company alert configuration, the view of `CompanyTelegramSetting`
consumed by the jobs through `should_send_company_alert` and
`get_company_ping_threshold`. -/
structure AlertConfig where
  pingDownEnabled : Bool
  highPingEnabled : Bool
  fiberDownEnabled : Bool
  highPingThresholdMs : Nat
deriving Repr, DecidableEq

/-- One outbound Telegram notification of the ping job, as structured data.
`restored` carries the rendered RTT and, when `down_start_at` was set, the
outage duration in seconds (the message renders it as minutes/seconds). -/
inductive PingEvent where
  | highPing (rtt threshold : Nat)
  | down (since : Option Int) (failures : Nat)
  | restored (rtt : Nat) (duration : Option Int)
  | stillDown (since : Int) (failures : Nat)
deriving Repr, DecidableEq

def PingEvent.isDown : PingEvent → Bool
  | .down _ _ => true
  | _ => false

def PingEvent.isRestored : PingEvent → Bool
  | .restored _ _ => true
  | _ => false

def PingEvent.isStillDown : PingEvent → Bool
  | .stillDown _ _ => true
  | _ => false

@[simp] theorem PingEvent.isRestored_highPing (r th : Nat) :
    PingEvent.isRestored (.highPing r th) = false := rfl

@[simp] theorem PingEvent.isRestored_restored (r : Nat) (d : Option Int) :
    PingEvent.isRestored (.restored r d) = true := rfl

@[simp] theorem PingEvent.isDown_highPing (r th : Nat) :
    PingEvent.isDown (.highPing r th) = false := rfl

@[simp] theorem PingEvent.isDown_down (s : Option Int) (f : Nat) :
    PingEvent.isDown (.down s f) = true := rfl

/-- One tick of `_scheduled_ping_job` for a single check (scheduler.py,
lines 156-245).  `rtt = none` is a timeout.  Returns the updated check state
and the notifications sent, in program order.  Note line 159 assigns
`last_checked_at = now` before the reminder block at lines 227-243 reads it
back, so the reminder's elapsed time is computed against the current tick. -/
def pingTick (cfg : AlertConfig) (s : PingState) (now : Int) (rtt : Option Nat) :
    PingState × List PingEvent :=
  -- lines 158-159: record latest result and check time
  let s1 : PingState := { s with lastRttMs := rtt, lastCheckedAt := some now }
  -- lines 164-177: stateless high-ping alert
  let highEvs : List PingEvent :=
    match rtt with
    | some r =>
        if cfg.highPingEnabled = true ∧ cfg.highPingThresholdMs < r then
          [PingEvent.highPing r cfg.highPingThresholdMs]
        else []
    | none => []
  -- lines 179-225: failure tracking and alerting
  let step : PingState × List PingEvent :=
    match rtt with
    | none =>
      -- lines 182-184: start outage timer on first failure, bump counter
      let ds : Option Int :=
        match s1.downStartAt with
        | none => some now
        | some t => some t
      let cf : Nat := s1.consecutiveFailures + 1
      -- lines 187-200: DOWN alert once the threshold is crossed
      if 5 ≤ cf ∧ s1.alerted = false ∧ cfg.pingDownEnabled = true then
        ({ s1 with downStartAt := ds, consecutiveFailures := cf, alerted := true },
         [PingEvent.down ds cf])
      else
        ({ s1 with downStartAt := ds, consecutiveFailures := cf }, [])
    | some r =>
      -- lines 201-225: RESTORED alert if previously down, then reset
      let evs : List PingEvent :=
        if s1.alerted = true ∨ 5 ≤ s1.consecutiveFailures then
          [PingEvent.restored r (s1.downStartAt.map (fun t => now - t))]
        else []
      ({ s1 with consecutiveFailures := 0, alerted := false, downStartAt := none }, evs)
  let s2 := step.1
  -- lines 227-243: 30-minute STILL DOWN reminder
  let remEvs : List PingEvent :=
    if rtt = none ∧ s2.alerted = true ∧ s2.downStartAt ≠ none ∧ cfg.pingDownEnabled = true then
      match s2.lastCheckedAt, s2.downStartAt with
      | some lc, some t =>
          if 1800 ≤ now - lc then [PingEvent.stillDown t s2.consecutiveFailures] else []
      | _, _ => []
    else []
  (s2, highEvs ++ step.2 ++ remEvs)

/-- A run of consecutive ticks of the ping job on one check: each list item is
the tick's `now` and its probe outcome. -/
def runPing (cfg : AlertConfig) (s : PingState) :
    List (Int × Option Nat) → PingState × List PingEvent
  | [] => (s, [])
  | (now, rtt) :: rest =>
    let step := pingTick cfg s now rtt
    let tail := runPing cfg step.1 rest
    (tail.1, step.2 ++ tail.2)

end RouterPortal

namespace RouterPortal

/-- C1: from the initial check state, with ping-down alerts enabled, a run of
4 consecutive timeouts emits no DOWN notification, and the run extended by a
5th timeout emits exactly one DOWN notification and leaves `alerted = true`. -/
theorem ping_five_timeouts_single_down_alert (cfg : AlertConfig)
    (t1 t2 t3 t4 t5 : Int) (henabled : cfg.pingDownEnabled = true) :
    ((runPing cfg initialPingState
        [(t1, none), (t2, none), (t3, none), (t4, none)]).2.filter
        PingEvent.isDown).length = 0 ∧
    ((runPing cfg initialPingState
        [(t1, none), (t2, none), (t3, none), (t4, none), (t5, none)]).2.filter
        PingEvent.isDown).length = 1 ∧
    (runPing cfg initialPingState
        [(t1, none), (t2, none), (t3, none), (t4, none), (t5, none)]).1.alerted = true := by
  simp [runPing, pingTick, initialPingState, henabled, PingEvent.isDown]

/-- A concrete company configuration with every alert category enabled,
used by the concrete witnesses below. -/
def allOnConfig : AlertConfig :=
  { pingDownEnabled := true, highPingEnabled := true, fiberDownEnabled := true,
    highPingThresholdMs := 90 }

/-- Witness for C1 at a concrete configuration and concrete tick times. -/
theorem ping_five_timeouts_single_down_alert_witness :
    allOnConfig.pingDownEnabled = true ∧
    (((runPing allOnConfig initialPingState
        [(0, none), (1, none), (2, none), (3, none)]).2.filter
        PingEvent.isDown).length = 0 ∧
    ((runPing allOnConfig initialPingState
        [(0, none), (1, none), (2, none), (3, none), (4, none)]).2.filter
        PingEvent.isDown).length = 1 ∧
    (runPing allOnConfig initialPingState
        [(0, none), (1, none), (2, none), (3, none), (4, none)]).1.alerted = true) :=
  ⟨rfl, ping_five_timeouts_single_down_alert allOnConfig 0 1 2 3 4 rfl⟩

/-- C2: a successful probe on a check that is in a DOWN state (alerted, or at
least 5 consecutive failures) with `down_start_at = t` emits exactly one
RESTORED notification, carrying the outage duration `now - t`, and resets
`consecutive_failures`, `alerted` and `down_start_at` to 0, false, none.
The RESTORED branch of the code is not gated on any alert category. -/
theorem ping_success_after_outage_restores (cfg : AlertConfig) (s : PingState)
    (now : Int) (r : Nat) (t : Int)
    (hdown : s.alerted = true ∨ 5 ≤ s.consecutiveFailures)
    (hsince : s.downStartAt = some t) :
    (pingTick cfg s now (some r)).2.filter PingEvent.isRestored =
      [PingEvent.restored r (some (now - t))] ∧
    (pingTick cfg s now (some r)).1.consecutiveFailures = 0 ∧
    (pingTick cfg s now (some r)).1.alerted = false ∧
    (pingTick cfg s now (some r)).1.downStartAt = none := by
  simp only [pingTick, hsince]
  by_cases hp : cfg.highPingEnabled = true ∧ cfg.highPingThresholdMs < r <;>
    rcases hdown with h | h <;>
      simp [hp, h, List.filter_append, Option.map_some]

/-- A concrete check state that has been down since time 0: alerted after
5 consecutive timeouts, last polled at time 120. -/
def alertedPingState : PingState :=
  { lastRttMs := none, lastCheckedAt := some 120, consecutiveFailures := 5,
    alerted := true, downStartAt := some 0 }

/-- Witness for C2: a check down since `t = 0` with 5 straight failures
restored at `now = 130`. -/
theorem ping_success_after_outage_restores_witness :
    (alertedPingState.alerted = true ∨ 5 ≤ alertedPingState.consecutiveFailures) ∧
    alertedPingState.downStartAt = some 0 ∧
    ((pingTick allOnConfig alertedPingState 130 (some 12)).2.filter
        PingEvent.isRestored = [PingEvent.restored 12 (some 130)] ∧
    (pingTick allOnConfig alertedPingState 130 (some 12)).1.consecutiveFailures = 0 ∧
    (pingTick allOnConfig alertedPingState 130 (some 12)).1.alerted = false ∧
    (pingTick allOnConfig alertedPingState 130 (some 12)).1.downStartAt = none) :=
  ⟨Or.inl rfl, rfl,
    ping_success_after_outage_restores allOnConfig alertedPingState 130 12 0
      (Or.inl rfl) rfl⟩

/-- The `PingCheck` alert-state invariant stated in the spec's data model:
an alerted check has crossed the failure threshold and carries an outage
start time. -/
def pingInvariant (s : PingState) : Prop :=
  s.alerted = true → 5 ≤ s.consecutiveFailures ∧ s.downStartAt ≠ none

/-- C6: every tick of the ping job preserves the `PingCheck` invariant
(`alerted → consecutive_failures ≥ 5 ∧ down_start_at ≠ none`), and any
successful probe resets `consecutive_failures = 0` with `alerted = false`. -/
theorem ping_tick_preserves_invariant (cfg : AlertConfig) (s : PingState)
    (now : Int) (rtt : Option Nat) (hinv : pingInvariant s) :
    pingInvariant (pingTick cfg s now rtt).1 ∧
    (∀ r : Nat, rtt = some r →
      (pingTick cfg s now rtt).1.consecutiveFailures = 0 ∧
      (pingTick cfg s now rtt).1.alerted = false) := by
  cases rtt with
  | none =>
    refine ⟨?_, by simp⟩
    simp only [pingTick]
    by_cases hc : 5 ≤ s.consecutiveFailures + 1 ∧ s.alerted = false ∧
        cfg.pingDownEnabled = true
    · simp only [hc, if_pos, pingInvariant]
      intro _
      refine ⟨hc.1, ?_⟩
      cases h : s.downStartAt <;> simp [h]
    · simp only [hc, if_neg, not_false_iff, pingInvariant]
      intro halerted
      have := hinv halerted
      refine ⟨Nat.le_succ_of_le this.1, ?_⟩
      cases h : s.downStartAt with
      | none => simp
      | some t => simp [h]
  | some r =>
    constructor
    · intro h
      simp [pingTick] at h
    · intro r' _
      constructor <;> rfl

/-- Witness for C6: the invariant holds of a fresh check and is preserved by
a timeout tick at time 0. -/
theorem ping_tick_preserves_invariant_witness :
    pingInvariant initialPingState ∧
    (pingInvariant (pingTick allOnConfig initialPingState 0 none).1 ∧
    (∀ r : Nat, (none : Option Nat) = some r →
      (pingTick allOnConfig initialPingState 0 none).1.consecutiveFailures = 0 ∧
      (pingTick allOnConfig initialPingState 0 none).1.alerted = false)) :=
  ⟨by simp [pingInvariant, initialPingState],
    ping_tick_preserves_invariant allOnConfig initialPingState 0 none
      (by simp [pingInvariant, initialPingState])⟩

/-- A concrete check state that is alerted, down since time 0, and was last
polled at time 0 — so by the next tick at time 2000 more than 30 minutes have
elapsed since the previous tick's `last_checked_at`. -/
def stalePingState : PingState :=
  { lastRttMs := none, lastCheckedAt := some 0, consecutiveFailures := 5,
    alerted := true, downStartAt := some 0 }

/-- C3 (failing input): a check that is already alerted (5 failures, down and
last checked at time 0) receives another timeout 2000 seconds — well over 30
minutes — later, with ping-down alerts enabled.  The code emits no STILL DOWN
reminder (indeed no notification at all), because line 159 of scheduler.py
overwrites `last_checked_at` with the current tick's time before line 230
computes `time_since_alert` from it, so the computed elapsed time is 0. -/
theorem ping_reminder_dead_at_failing_input :
    (pingTick allOnConfig stalePingState 2000 none).2 = [] ∧
    (1800 : Int) ≤ 2000 - 0 := by
  constructor
  · simp [pingTick, stalePingState, allOnConfig]
  · norm_num

/-! ### Optical (fiber) alert state machine

Embedding of the per-check body of `_scheduled_fiber_job` (scheduler.py,
lines 361-473).  The probe `get_interface_status_and_power` (snmp_utils.py)
returns a reading — a dict holding `if_oper_status` (an int, 1 = Up) and
optional Rx/Tx power — or `None` on failure; the job also maps a raised
exception to `None` (lines 382-383).  `FiberState` holds the mutable columns
of `FiberCheck` (models.py, lines 81-95). -/

structure FiberReading where
  ifOperStatus : Nat
  rxPowerDbm : Option Int
  txPowerDbm : Option Int
deriving Repr, DecidableEq

structure FiberState where
  lastRxDbm : Option Int
  lastTxDbm : Option Int
  lastOperStatus : Option Nat
  lastCheckedAt : Option Int
  alertedDown : Bool
  downStartAt : Option Int
deriving Repr, DecidableEq

/-- One outbound Telegram notification of the fiber job. `restored` carries
the Rx/Tx powers and, when `down_start_at` was set, the outage duration in
seconds (rendered by the message as minutes/seconds; a zero duration renders
as no duration text). -/
inductive FiberEvent where
  | down (since : Int)
  | restored (rx tx : Option Int) (duration : Option Int)
  | stillDown (since : Int)
deriving Repr, DecidableEq

def FiberEvent.isDown : FiberEvent → Bool
  | .down _ => true
  | _ => false

def FiberEvent.isRestored : FiberEvent → Bool
  | .restored _ _ _ => true
  | _ => false

/-- One tick of `_scheduled_fiber_job` for a single check (scheduler.py,
lines 385-469).  `res = none` is an unavailable probe.  Mirrors the Python
comparisons: `prev_oper_status == 1` is `prev = some 1` and
`c.last_oper_status != 1` is `oper ≠ some 1` (Python's `None != 1` is true).
Note line 390 assigns `last_checked_at = now` before the reminder block at
lines 443-460 reads it back.  The appended `FiberSample` row duplicates the
recorded `lastRxDbm`/`lastTxDbm`/`lastOperStatus` fields and is not modelled
separately. -/
def fiberTick (cfg : AlertConfig) (s : FiberState) (now : Int)
    (res : Option FiberReading) : FiberState × List FiberEvent :=
  -- lines 386-390: record the reading (all-null when unavailable)
  let prev := s.lastOperStatus
  let s1 : FiberState :=
    { s with lastRxDbm := res.bind FiberReading.rxPowerDbm,
             lastTxDbm := res.bind FiberReading.txPowerDbm,
             lastOperStatus := res.map FiberReading.ifOperStatus,
             lastCheckedAt := some now }
  -- lines 392-409: DOWN on an Up → non-Up edge
  if prev = some 1 ∧ s1.lastOperStatus ≠ some 1 ∧ cfg.fiberDownEnabled = true then
    let dsv : Int :=
      match s1.downStartAt with
      | none => now
      | some t => t
    ({ s1 with downStartAt := some dsv, alertedDown := true }, [FiberEvent.down dsv])
  -- lines 411-441: RESTORED on a non-Up → Up edge
  else if prev ≠ some 1 ∧ s1.lastOperStatus = some 1 ∧ cfg.fiberDownEnabled = true then
    ({ s1 with alertedDown := false, downStartAt := none },
     [FiberEvent.restored s1.lastRxDbm s1.lastTxDbm
        (s1.downStartAt.map (fun t => now - t))])
  -- lines 443-460: 30-minute STILL DOWN reminder
  else if s1.lastOperStatus ≠ some 1 ∧ s1.alertedDown = true ∧ s1.downStartAt ≠ none ∧
      cfg.fiberDownEnabled = true then
    let evs : List FiberEvent :=
      match s1.lastCheckedAt, s1.downStartAt with
      | some lc, some t => if 1800 ≤ now - lc then [FiberEvent.stillDown t] else []
      | _, _ => []
    (s1, evs)
  else (s1, [])

/-- A concrete fiber check whose last reading was Up and that is not in any
alerted state. -/
def upFiberState : FiberState :=
  { lastRxDbm := some (-7), lastTxDbm := some (-3), lastOperStatus := some 1,
    lastCheckedAt := some 0, alertedDown := false, downStartAt := none }

/-- C4 (counterexample): with fiber-down alerts enabled, an unavailable probe
(`res = none`) on a check whose previous oper status was Up records the status
as unset but IS treated as a Down transition: Python's `None != 1` makes the
Up → non-Up condition at scheduler.py line 393 true, so a DOWN notification is
emitted and `alerted_down`/`down_start_at` are set — contradicting the claim
at this concrete input. -/
theorem fiber_unavailable_emits_down_at_up_state :
    (fiberTick allOnConfig upFiberState 60 none).1.lastOperStatus = none ∧
    (fiberTick allOnConfig upFiberState 60 none).2 = [FiberEvent.down 60] ∧
    (fiberTick allOnConfig upFiberState 60 none).1.alertedDown = true ∧
    (fiberTick allOnConfig upFiberState 60 none).1.downStartAt = some 60 := by
  refine ⟨rfl, ?_, rfl, rfl⟩
  simp [fiberTick, upFiberState, allOnConfig]

/-- C4 (amended): an unavailable probe on a previously-Up check records the
oper status as unset (null).  When the tenant's fiber-down alert category is
disabled, no notification is emitted and `alerted_down`/`down_start_at` are
untouched; when it is enabled, the null reading is treated as a Down
transition — exactly one DOWN notification is emitted, `alerted_down` is set,
and `down_start_at` is set (kept if already set, else set to `now`). -/
theorem fiber_unavailable_recorded_null (cfg : AlertConfig) (s : FiberState)
    (now : Int) (hup : s.lastOperStatus = some 1) :
    (fiberTick cfg s now none).1.lastOperStatus = none ∧
    (cfg.fiberDownEnabled = false →
      (fiberTick cfg s now none).2 = [] ∧
      (fiberTick cfg s now none).1.alertedDown = s.alertedDown ∧
      (fiberTick cfg s now none).1.downStartAt = s.downStartAt) ∧
    (cfg.fiberDownEnabled = true →
      ((fiberTick cfg s now none).2.filter FiberEvent.isDown).length = 1 ∧
      (fiberTick cfg s now none).1.alertedDown = true ∧
      (fiberTick cfg s now none).1.downStartAt =
        some (s.downStartAt.getD now)) := by
  refine ⟨?_, ?_, ?_⟩
  · by_cases hfd : cfg.fiberDownEnabled = true <;> simp [fiberTick, hup, hfd]
  · intro hoff
    simp [fiberTick, hup, hoff]
  · intro hon
    refine ⟨?_, ?_, ?_⟩ <;>
      cases hds : s.downStartAt <;>
        simp [fiberTick, hup, hon, hds, FiberEvent.isDown]

/-- Witness for C4 (amended) at the concrete Up-state check. -/
theorem fiber_unavailable_recorded_null_witness :
    upFiberState.lastOperStatus = some 1 ∧
    ((fiberTick allOnConfig upFiberState 60 none).1.lastOperStatus = none ∧
    (allOnConfig.fiberDownEnabled = false →
      (fiberTick allOnConfig upFiberState 60 none).2 = [] ∧
      (fiberTick allOnConfig upFiberState 60 none).1.alertedDown =
        upFiberState.alertedDown ∧
      (fiberTick allOnConfig upFiberState 60 none).1.downStartAt =
        upFiberState.downStartAt) ∧
    (allOnConfig.fiberDownEnabled = true →
      ((fiberTick allOnConfig upFiberState 60 none).2.filter
        FiberEvent.isDown).length = 1 ∧
      (fiberTick allOnConfig upFiberState 60 none).1.alertedDown = true ∧
      (fiberTick allOnConfig upFiberState 60 none).1.downStartAt =
        some (upFiberState.downStartAt.getD 60))) :=
  ⟨rfl, fiber_unavailable_recorded_null allOnConfig upFiberState 60 rfl⟩

/-- A company configuration whose fiber-down alert category is disabled. -/
def fiberOffConfig : AlertConfig :=
  { pingDownEnabled := true, highPingEnabled := true, fiberDownEnabled := false,
    highPingThresholdMs := 90 }

/-- C5 (counterexample): every transition branch of the fiber job, including
the state updates to `down_start_at` and `alerted_down`, is gated on
`should_send_company_alert(company, fiber_down)` (scheduler.py lines 393 and
412).  For a tenant with fiber-down alerts disabled, an Up(1) → Down(2)
reading emits no DOWN notification and leaves `alerted_down = false` and
`down_start_at = none` — contradicting the claim at this concrete input. -/
theorem fiber_edge_ignored_when_alerts_off :
    (fiberTick fiberOffConfig upFiberState 60
        (some { ifOperStatus := 2, rxPowerDbm := none, txPowerDbm := none })).2 = [] ∧
    (fiberTick fiberOffConfig upFiberState 60
        (some { ifOperStatus := 2, rxPowerDbm := none, txPowerDbm := none })).1.alertedDown
      = false ∧
    (fiberTick fiberOffConfig upFiberState 60
        (some { ifOperStatus := 2, rxPowerDbm := none, txPowerDbm := none })).1.downStartAt
      = none := by
  refine ⟨?_, rfl, rfl⟩
  simp [fiberTick, upFiberState, fiberOffConfig]

/-- C5 (amended): with the tenant's fiber-down alert category enabled, an
Up(1) → non-Up oper-status transition sets `down_start_at` once (kept if
already set, else set to `now`), sets `alerted_down = true`, and emits exactly
one DOWN notification; a non-Up → Up(1) transition on a check down since
`t ≤ now` emits exactly one RESTORED notification whose computed outage
duration `now - t` is non-negative, and clears `alerted_down` and
`down_start_at`. -/
theorem fiber_edge_transitions (cfg : AlertConfig) (s : FiberState) (now : Int)
    (res : Option FiberReading) (hen : cfg.fiberDownEnabled = true) :
    (s.lastOperStatus = some 1 → res.map FiberReading.ifOperStatus ≠ some 1 →
      (fiberTick cfg s now res).2 = [FiberEvent.down (s.downStartAt.getD now)] ∧
      (fiberTick cfg s now res).1.alertedDown = true ∧
      (fiberTick cfg s now res).1.downStartAt = some (s.downStartAt.getD now)) ∧
    (s.lastOperStatus ≠ some 1 → res.map FiberReading.ifOperStatus = some 1 →
      ∀ t : Int, s.downStartAt = some t → t ≤ now →
        (fiberTick cfg s now res).2 =
          [FiberEvent.restored (res.bind FiberReading.rxPowerDbm)
            (res.bind FiberReading.txPowerDbm) (some (now - t))] ∧
        0 ≤ now - t ∧
        (fiberTick cfg s now res).1.alertedDown = false ∧
        (fiberTick cfg s now res).1.downStartAt = none) := by
  constructor
  · intro hup hnon
    refine ⟨?_, ?_, ?_⟩ <;>
      cases hds : s.downStartAt <;>
        simp [fiberTick, hup, hnon, hen, hds]
  · intro hnon hup t hds hle
    refine ⟨?_, by omega, ?_, ?_⟩ <;>
      simp [fiberTick, hup, hnon, hen, hds]

/-- A concrete fiber check that has been down (status 2) since time 10. -/
def downFiberState : FiberState :=
  { lastRxDbm := none, lastTxDbm := none, lastOperStatus := some 2,
    lastCheckedAt := some 50, alertedDown := true, downStartAt := some 10 }

/-- Witness for C5 (amended), exercising the restore direction at a concrete
down state and, vacuously instantiable, the down direction. -/
theorem fiber_edge_transitions_witness :
    allOnConfig.fiberDownEnabled = true ∧
    ((downFiberState.lastOperStatus = some 1 →
      (some { ifOperStatus := 1, rxPowerDbm := some (-8), txPowerDbm := some (-2) } :
          Option FiberReading).map FiberReading.ifOperStatus ≠ some 1 →
      (fiberTick allOnConfig downFiberState 70
          (some { ifOperStatus := 1, rxPowerDbm := some (-8), txPowerDbm := some (-2) })).2 =
        [FiberEvent.down (downFiberState.downStartAt.getD 70)] ∧
      (fiberTick allOnConfig downFiberState 70
          (some { ifOperStatus := 1, rxPowerDbm := some (-8), txPowerDbm := some (-2) })).1.alertedDown = true ∧
      (fiberTick allOnConfig downFiberState 70
          (some { ifOperStatus := 1, rxPowerDbm := some (-8), txPowerDbm := some (-2) })).1.downStartAt =
        some (downFiberState.downStartAt.getD 70)) ∧
    (downFiberState.lastOperStatus ≠ some 1 →
      (some { ifOperStatus := 1, rxPowerDbm := some (-8), txPowerDbm := some (-2) } :
          Option FiberReading).map FiberReading.ifOperStatus = some 1 →
      ∀ t : Int, downFiberState.downStartAt = some t → t ≤ 70 →
        (fiberTick allOnConfig downFiberState 70
            (some { ifOperStatus := 1, rxPowerDbm := some (-8), txPowerDbm := some (-2) })).2 =
          [FiberEvent.restored
            ((some { ifOperStatus := 1, rxPowerDbm := some (-8), txPowerDbm := some (-2) } :
                Option FiberReading).bind FiberReading.rxPowerDbm)
            ((some { ifOperStatus := 1, rxPowerDbm := some (-8), txPowerDbm := some (-2) } :
                Option FiberReading).bind FiberReading.txPowerDbm) (some (70 - t))] ∧
        0 ≤ 70 - t ∧
        (fiberTick allOnConfig downFiberState 70
            (some { ifOperStatus := 1, rxPowerDbm := some (-8), txPowerDbm := some (-2) })).1.alertedDown = false ∧
        (fiberTick allOnConfig downFiberState 70
            (some { ifOperStatus := 1, rxPowerDbm := some (-8), txPowerDbm := some (-2) })).1.downStartAt = none)) :=
  ⟨rfl, fiber_edge_transitions allOnConfig downFiberState 70
    (some { ifOperStatus := 1, rxPowerDbm := some (-8), txPowerDbm := some (-2) }) rfl⟩

/-! ### Resource polling tick

Embedding of `_scheduled_monitoring_job` (scheduler.py, lines 86-134) as far
as `ResourceMetric` persistence is concerned.  The body iterates the enabled
devices with no per-device try/except; `fetch_device_resources` returning
`None` skips the device (lines 95-96), a metric dict adds a `ResourceMetric`
row to the session (lines 97-105), and a single `db.session.commit()` at line
134 persists the whole batch after the loop.  An exception raised inside the
loop would escape the job body, so the commit would never run and nothing
added this tick would be persisted.  The in-loop threshold-alert block (lines
107-133) touches only `Device` alert timestamps and Telegram, not
`ResourceMetric` rows, and is elided here. -/

/-- A device probe outcome in the resource-polling tick: a metrics dict
(payload abstracted), a `None` return, or a raised exception. -/
inductive ProbeOutcome where
  | metrics (payload : Nat)
  | unavailable
  | raised
deriving Repr, DecidableEq

def ProbeOutcome.isMetrics : ProbeOutcome → Bool
  | .metrics _ => true
  | _ => false

/-- The device loop of `_scheduled_monitoring_job`: `pend` is the set of
`ResourceMetric` rows added to the session so far.  The returned list is the
set of device ids whose sample rows are persisted by the tick. -/
def monitoringLoop (pend : List Nat) : List (Nat × ProbeOutcome) → List Nat
  | [] => pend                                   -- line 134: db.session.commit()
  | (d, .metrics _) :: rest => monitoringLoop (pend ++ [d]) rest
  | (_, .unavailable) :: rest => monitoringLoop pend rest
  | (_, .raised) :: _ => []                      -- exception escapes before the commit

/-- One resource-polling tick over a list of (device id, probe outcome):
returns the device ids whose `ResourceSample` rows end up persisted. -/
def monitoringRun (devices : List (Nat × ProbeOutcome)) : List Nat :=
  monitoringLoop [] devices

/-- C7 (counterexample): in a tick where device 1's probe succeeds and device
2's probe raises, device 1's sample is NOT persisted: the loop has no
per-device exception isolation and only one batch commit after the loop, so
the raise aborts the tick before anything is committed — contradicting the
claim at this concrete input. -/
theorem monitoring_raise_loses_successful_sample :
    monitoringRun [(1, ProbeOutcome.metrics 42), (2, ProbeOutcome.raised)] = [] ∧
    (ProbeOutcome.metrics 42).isMetrics = true := ⟨rfl, rfl⟩

/-- Helper: the device loop accumulates exactly the metric-bearing device ids
when no probe outcome raises. -/
theorem monitoringLoop_no_raise (devices : List (Nat × ProbeOutcome))
    (pend : List Nat) (h : ∀ p ∈ devices, p.2 ≠ ProbeOutcome.raised) :
    monitoringLoop pend devices =
      pend ++ (devices.filter (fun p => p.2.isMetrics)).map Prod.fst := by
  induction devices generalizing pend with
  | nil => simp [monitoringLoop]
  | cons hd tl ih =>
    obtain ⟨d, o⟩ := hd
    have hhd : o ≠ ProbeOutcome.raised := h (d, o) (List.mem_cons_self _ _)
    have htl : ∀ p ∈ tl, p.2 ≠ ProbeOutcome.raised :=
      fun p hp => h p (List.mem_cons_of_mem _ hp)
    cases o with
    | metrics m =>
      simp [monitoringLoop, ih _ htl, ProbeOutcome.isMetrics, List.filter_cons]
    | unavailable =>
      simp [monitoringLoop, ih _ htl, ProbeOutcome.isMetrics, List.filter_cons]
    | raised => exact absurd rfl hhd

/-- C7 (amended): in a resource-polling tick where no probe raises, a device
whose probe fails by returning null is skipped and every device whose probe
succeeded has its sample persisted by the single end-of-tick batch commit. -/
theorem monitoring_none_isolated (devices : List (Nat × ProbeOutcome))
    (h : ∀ p ∈ devices, p.2 ≠ ProbeOutcome.raised) :
    monitoringRun devices =
      (devices.filter (fun p => p.2.isMetrics)).map Prod.fst := by
  simpa [monitoringRun] using monitoringLoop_no_raise devices [] h

/-- Witness for C7 (amended): device 1 succeeds, device 2's probe returns
null; only device 1's sample is persisted. -/
theorem monitoring_none_isolated_witness :
    (∀ p ∈ [(1, ProbeOutcome.metrics 42), (2, ProbeOutcome.unavailable)],
      Prod.snd p ≠ ProbeOutcome.raised) ∧
    monitoringRun [(1, ProbeOutcome.metrics 42), (2, ProbeOutcome.unavailable)] =
      ([(1, ProbeOutcome.metrics 42), (2, ProbeOutcome.unavailable)].filter
        (fun p => p.2.isMetrics)).map Prod.fst :=
  ⟨by decide,
    monitoring_none_isolated
      [(1, ProbeOutcome.metrics 42), (2, ProbeOutcome.unavailable)] (by decide)⟩

/-! ### Report chunking and the part-sending caller

`app.py` (line 18) imports `_chunk_text_for_telegram` from `scheduler`, but no
definition of it exists anywhere under the repository's source; only its
caller (app.py, lines 1005-1016) is present.  The splitter itself is
therefore modelled from the spec, and the caller loop is embedded from
app.py. -/

/-- Index of the last line break in a character list, if any. -/
def lastNewlineIdx : List Char → Option Nat
  | [] => none
  | c :: cs =>
    match lastNewlineIdx cs with
    | some p => some (p + 1)
    | none => if c = '\n' then some 0 else none

theorem lastNewlineIdx_lt {cs : List Char} {p : Nat}
    (h : lastNewlineIdx cs = some p) : p < cs.length := by
  induction cs generalizing p with
  | nil => simp [lastNewlineIdx] at h
  | cons c cs ih =>
    simp only [lastNewlineIdx] at h
    cases hcs : lastNewlineIdx cs with
    | some q =>
      rw [hcs] at h
      simp only [Option.some.injEq] at h
      subst h
      simp only [List.length_cons]
      exact Nat.succ_lt_succ (ih hcs)
    | none =>
      rw [hcs] at h
      by_cases hc : c = '\n'
      · rw [if_pos hc] at h
        simp only [Option.some.injEq] at h
        subst h
        simp only [List.length_cons]
        omega
      · rw [if_neg hc] at h
        simp at h

/-- Where to cut the next part: after the last line break inside the first
`maxLen` characters (so the break stays with the leading part and
concatenation reconstructs the text), or a hard cut at `maxLen` when the
window holds no break. -/
def cutPos (maxLen : Nat) (text : List Char) : Nat :=
  match lastNewlineIdx (text.take maxLen) with
  | some p => p + 1
  | none => maxLen

theorem cutPos_le (maxLen : Nat) (text : List Char) : cutPos maxLen text ≤ maxLen := by
  unfold cutPos
  cases h : lastNewlineIdx (text.take maxLen) with
  | some p =>
    have hp := lastNewlineIdx_lt h
    simp only [List.length_take] at hp
    show p + 1 ≤ maxLen
    omega
  | none => exact Nat.le_refl _

theorem cutPos_pos (maxLen : Nat) (text : List Char) (h : 1 ≤ maxLen) :
    1 ≤ cutPos maxLen text := by
  unfold cutPos
  cases hn : lastNewlineIdx (text.take maxLen) with
  | some p =>
    show 1 ≤ p + 1
    omega
  | none => exact h

/-- Modelled from the spec: `_chunk_text_for_telegram` is imported by app.py
from `scheduler` but not defined anywhere under the repository source.  Per
§4.5 it splits overlong report text into ordered parts on safe boundaries
(line breaks preferred) so each part fits the transport's message-size limit.
`fuel` bounds the recursion; each step consumes at least one character, so
`text.length` fuel suffices. -/
def chunkTextFuel : Nat → Nat → List Char → List (List Char)
  | 0, _, text => [text]
  | fuel + 1, maxLen, text =>
    if text.length ≤ maxLen ∨ maxLen = 0 then [text]
    else
      text.take (cutPos maxLen text) ::
        chunkTextFuel fuel maxLen (text.drop (cutPos maxLen text))

/-- Modelled from the spec: `chunk(text, max_len)` of §4.5 (see
`chunkTextFuel`). -/
def chunkText (maxLen : Nat) (text : List Char) : List (List Char) :=
  chunkTextFuel text.length maxLen text

theorem chunkTextFuel_flat (maxLen : Nat) :
    ∀ (fuel : Nat) (text : List Char), text.length ≤ fuel →
      (chunkTextFuel fuel maxLen text).flatten = text := by
  intro fuel
  induction fuel with
  | zero => intro text _; simp [chunkTextFuel]
  | succ n ih =>
    intro text hlen
    by_cases hstop : text.length ≤ maxLen ∨ maxLen = 0
    · simp [chunkTextFuel, hstop]
    · have hm : 1 ≤ maxLen := by omega
      have hcut := cutPos_pos maxLen text hm
      have hrest : (text.drop (cutPos maxLen text)).length ≤ n := by
        simp only [List.length_drop]
        omega
      simp only [chunkTextFuel, hstop, if_false, List.flatten_cons, ih _ hrest]
      exact List.take_append_drop _ text

theorem chunkTextFuel_part_le (maxLen : Nat) (hm : 1 ≤ maxLen) :
    ∀ (fuel : Nat) (text : List Char), text.length ≤ fuel →
      ∀ part ∈ chunkTextFuel fuel maxLen text, part.length ≤ maxLen := by
  intro fuel
  induction fuel with
  | zero =>
    intro text hlen part hpart
    simp [chunkTextFuel] at hpart
    subst hpart
    omega
  | succ n ih =>
    intro text hlen part hpart
    by_cases hstop : text.length ≤ maxLen ∨ maxLen = 0
    · simp [chunkTextFuel, hstop] at hpart
      subst hpart
      rcases hstop with h | h
      · exact h
      · omega
    · have hcut := cutPos_pos maxLen text hm
      have hcle := cutPos_le maxLen text
      have hrest : (text.drop (cutPos maxLen text)).length ≤ n := by
        simp only [List.length_drop]
        omega
      simp only [chunkTextFuel, hstop, if_false, List.mem_cons] at hpart
      rcases hpart with h | h
      · subst h
        simp only [List.length_take]
        omega
      · exact ih _ hrest part h

theorem chunkText_of_short (maxLen : Nat) (text : List Char)
    (h : text.length ≤ maxLen) : chunkText maxLen text = [text] := by
  unfold chunkText
  cases hl : text.length with
  | zero => rfl
  | succ n => simp [chunkTextFuel, h]

/-- One outbound report message as assembled by the caller in app.py
(lines 1008-1015): the optional "Part i/N" tag injected for multi-part
reports, and the chunk body. -/
structure SentMessage where
  partTag : Option (Nat × Nat)
  body : List Char
deriving Repr, DecidableEq

/-- The message assembled for one part at app.py lines 1011-1012:
`prefix = f"Part {idx}/{len(parts)}\n" if len(parts) > 1 else ""`. -/
def mkPartMsg (total idx : Nat) (part : List Char) : SentMessage :=
  { partTag := if 1 < total then some (idx, total) else none, body := part }

/-- The send loop of app.py lines 1008-1015: parts are numbered from `idx`,
tagged "Part i/N" only when `total > 1`, sent in order through `sendOk`, and
the loop breaks on the first failed send.  Returns the messages actually
handed to the transport and the loop's `all_ok` flag. -/
def sendPartsFrom (sendOk : SentMessage → Bool) (total : Nat) :
    Nat → List (List Char) → List SentMessage × Bool
  | _, [] => ([], true)
  | idx, part :: rest =>
    if sendOk (mkPartMsg total idx part) then
      let tail := sendPartsFrom sendOk total (idx + 1) rest
      (mkPartMsg total idx part :: tail.1, tail.2)
    else ([mkPartMsg total idx part], false)

/-- Chunk a report and send the parts, as app.py lines 1005-1015 do. -/
def sendChunkedReport (sendOk : SentMessage → Bool) (maxLen : Nat)
    (text : List Char) : List SentMessage × Bool :=
  sendPartsFrom sendOk (chunkText maxLen text).length 1 (chunkText maxLen text)

theorem sendPartsFrom_spec (sendOk : SentMessage → Bool) (total : Nat) :
    ∀ (ps : List (List Char)) (idx : Nat),
      (∀ m ∈ (sendPartsFrom sendOk total idx ps).1,
        (m.partTag.isSome = true ↔ 1 < total)) ∧
      ((sendPartsFrom sendOk total idx ps).1.map SentMessage.body =
        ps.take (sendPartsFrom sendOk total idx ps).1.length) ∧
      (∀ m ∈ (sendPartsFrom sendOk total idx ps).1.dropLast, sendOk m = true) ∧
      ((sendPartsFrom sendOk total idx ps).2 = false →
        ∃ m, (sendPartsFrom sendOk total idx ps).1.getLast? = some m ∧
          sendOk m = false) := by
  intro ps
  induction ps with
  | nil =>
    intro idx
    refine ⟨by simp [sendPartsFrom], by simp [sendPartsFrom], by simp [sendPartsFrom], ?_⟩
    intro h
    simp [sendPartsFrom] at h
  | cons part rest ih =>
    intro idx
    by_cases hs : sendOk (mkPartMsg total idx part) = true
    · obtain ⟨iha, ihb, ihc, ihd⟩ := ih (idx + 1)
      refine ⟨?_, ?_, ?_, ?_⟩ <;>
        simp only [sendPartsFrom, hs, if_true]
      · intro m hm
        rcases List.mem_cons.mp hm with h | h
        · subst h
          by_cases ht : 1 < total <;> simp [mkPartMsg, ht]
        · exact iha m h
      · simp [mkPartMsg, ihb]
      · intro m hm
        cases htail : (sendPartsFrom sendOk total (idx + 1) rest).1 with
        | nil => simp [htail] at hm
        | cons x xs =>
          rw [htail] at hm
          rw [List.dropLast_cons₂] at hm
          rcases List.mem_cons.mp hm with h | h
          · subst h; exact hs
          · apply ihc
            rw [htail]
            exact h
      · intro hfail
        obtain ⟨m, hm, hmo⟩ := ihd hfail
        refine ⟨m, ?_, hmo⟩
        cases htail : (sendPartsFrom sendOk total (idx + 1) rest).1 with
        | nil => rw [htail] at hm; simp at hm
        | cons x xs =>
          rw [htail] at hm
          rw [List.getLast?_cons_cons]
          exact hm
    · refine ⟨?_, ?_, ?_, ?_⟩ <;>
        simp only [sendPartsFrom, hs, if_false]
      · intro m hm
        rcases List.mem_cons.mp hm with h | h
        · subst h
          by_cases ht : 1 < total <;> simp [mkPartMsg, ht]
        · simp at h
      · simp [mkPartMsg]
      · intro m hm
        simp at hm
      · intro _
        refine ⟨_, rfl, ?_⟩
        simpa using hs

/-- C8: for any text and any positive part limit, the chunks concatenate back
to the original text, every chunk fits the limit, and a text already within
the limit yields exactly one chunk; the caller tags a sent message with
"Part i/N" exactly when there is more than one chunk, hands the transport the
chunk bodies in order (an initial segment of the chunk list), every sent
message except possibly the last succeeded, and on a failed run the last
message handed over is the failed one (no later part is sent). -/
theorem chunk_reconstructs_and_caller_stops (maxLen : Nat) (text : List Char)
    (sendOk : SentMessage → Bool) (hpos : 1 ≤ maxLen) :
    (chunkText maxLen text).flatten = text ∧
    (∀ part ∈ chunkText maxLen text, part.length ≤ maxLen) ∧
    (text.length ≤ maxLen → chunkText maxLen text = [text]) ∧
    (∀ m ∈ (sendChunkedReport sendOk maxLen text).1,
      (m.partTag.isSome = true ↔ 1 < (chunkText maxLen text).length)) ∧
    ((sendChunkedReport sendOk maxLen text).1.map SentMessage.body =
      (chunkText maxLen text).take (sendChunkedReport sendOk maxLen text).1.length) ∧
    (∀ m ∈ (sendChunkedReport sendOk maxLen text).1.dropLast, sendOk m = true) ∧
    ((sendChunkedReport sendOk maxLen text).2 = false →
      ∃ m, (sendChunkedReport sendOk maxLen text).1.getLast? = some m ∧
        sendOk m = false) := by
  obtain ⟨ha, hb, hc, hd⟩ :=
    sendPartsFrom_spec sendOk (chunkText maxLen text).length (chunkText maxLen text) 1
  exact ⟨chunkTextFuel_flat maxLen text.length text (Nat.le_refl _),
    chunkTextFuel_part_le maxLen hpos text.length text (Nat.le_refl _),
    chunkText_of_short maxLen text, ha, hb, hc, hd⟩

/-- Witness for C8 on the concrete text "ab\ncd" with limit 3 and a transport
that accepts every message. -/
theorem chunk_reconstructs_and_caller_stops_witness :
    1 ≤ 3 ∧
    ((chunkText 3 ['a', 'b', '\n', 'c', 'd']).flatten = ['a', 'b', '\n', 'c', 'd'] ∧
    (∀ part ∈ chunkText 3 ['a', 'b', '\n', 'c', 'd'], part.length ≤ 3) ∧
    (['a', 'b', '\n', 'c', 'd'].length ≤ 3 →
      chunkText 3 ['a', 'b', '\n', 'c', 'd'] = [['a', 'b', '\n', 'c', 'd']]) ∧
    (∀ m ∈ (sendChunkedReport (fun _ => true) 3 ['a', 'b', '\n', 'c', 'd']).1,
      (m.partTag.isSome = true ↔ 1 < (chunkText 3 ['a', 'b', '\n', 'c', 'd']).length)) ∧
    ((sendChunkedReport (fun _ => true) 3 ['a', 'b', '\n', 'c', 'd']).1.map
        SentMessage.body =
      (chunkText 3 ['a', 'b', '\n', 'c', 'd']).take
        (sendChunkedReport (fun _ => true) 3 ['a', 'b', '\n', 'c', 'd']).1.length) ∧
    (∀ m ∈ (sendChunkedReport (fun _ => true) 3 ['a', 'b', '\n', 'c', 'd']).1.dropLast,
      (fun _ => true) m = true) ∧
    ((sendChunkedReport (fun _ => true) 3 ['a', 'b', '\n', 'c', 'd']).2 = false →
      ∃ m, (sendChunkedReport (fun _ => true) 3
          ['a', 'b', '\n', 'c', 'd']).1.getLast? = some m ∧
        (fun _ => true) m = false)) :=
  ⟨by decide,
    chunk_reconstructs_and_caller_stops 3 ['a', 'b', '\n', 'c', 'd']
      (fun _ => true) (by decide)⟩

/-! ### Periodic (hourly) report task

Embedding of `_scheduled_hourly_report` (scheduler.py, lines 300-358).  The
first loop (lines 306-344) builds `company_to_lines` for EVERY device — one
header line per company plus one line per owned device — before any
per-tenant settings are consulted; report lines are abstracted to their
count.  The second loop (lines 346-357) skips falsy company ids, tenants
without settings and disabled tenants, gates on the report interval
(`report_interval_minutes or 60`, so a 0/None interval falls back to 60), and
stamps `last_report_sent_at = now` only when the send returned ok. -/

structure ReportSettings where
  enabled : Bool
  reportIntervalMinutes : Nat
  lastReportSentAt : Option Int
deriving Repr, DecidableEq

/-- `company_to_lines.setdefault(d.company_id, [header]); lines.append(...)`
(scheduler.py, lines 341-344) over an association list keyed by the device's
company id; the value counts the accumulated lines (header included). -/
def addReportLine (m : List (Option Nat × Nat)) (cid : Option Nat) :
    List (Option Nat × Nat) :=
  match m with
  | [] => [(cid, 2)]
  | (c, k) :: rest =>
    if c = cid then (c, k + 1) :: rest else (c, k) :: addReportLine rest cid

/-- The `company_to_lines` map after the first loop of
`_scheduled_hourly_report`, built from the device list's company ids. -/
def companyLines (devices : List (Option Nat)) : List (Option Nat × Nat) :=
  devices.foldl addReportLine []

/-- The interval gate at scheduler.py line 355:
`settings.last_report_sent_at is None or (now - last).total_seconds() >=
interval * 60`, with `interval = settings.report_interval_minutes or 60`. -/
def reportGate (st : ReportSettings) (now : Int) : Bool :=
  match st.lastReportSentAt with
  | none => true
  | some t =>
    decide (((if st.reportIntervalMinutes = 0 then 60
      else st.reportIntervalMinutes : Nat) : Int) * 60 ≤ now - t)

/-- The per-company body of the second loop (scheduler.py, lines 348-357).
`none` means the company was skipped with no send and no stamp write (falsy
id, no settings row, or disabled).  Otherwise the entry records the company
id, whether a send was attempted and its outcome (`none` = gate closed), and
the company's `last_report_sent_at` after the tick. -/
def companyReportStep (settingsOf : Nat → Option ReportSettings)
    (sendOk : Nat → Bool) (now : Int) :
    Option Nat → Option (Nat × Option Bool × Option Int)
  | none => none
  | some 0 => none
  | some (n + 1) =>
    match settingsOf (n + 1) with
    | none => none
    | some st =>
      if st.enabled = false then none
      else if reportGate st now then
        some (n + 1, some (sendOk (n + 1)),
          if sendOk (n + 1) = true then some now else st.lastReportSentAt)
      else some (n + 1, none, st.lastReportSentAt)

/-- One firing of `_scheduled_hourly_report`: build the per-company lines
from the devices, then run the send loop over the built map. -/
def hourlyReportTick (settingsOf : Nat → Option ReportSettings)
    (sendOk : Nat → Bool) (now : Int) (devices : List (Option Nat)) :
    List (Nat × Option Bool × Option Int) :=
  (companyLines devices).filterMap
    (fun e => companyReportStep settingsOf sendOk now e.1)

/-- Report settings of a tenant whose reporting is disabled. -/
def disabledReportSettings : ReportSettings :=
  { enabled := false, reportIntervalMinutes := 60, lastReportSentAt := none }

/-- A settings table holding only company 1, with reporting disabled. -/
def oneDisabledTenant : Nat → Option ReportSettings :=
  fun c => if c = 1 then some disabledReportSettings else none

/-- C9 (counterexample): for a tenant whose reporting is disabled, the report
task still builds that tenant's report lines — the first loop of
`_scheduled_hourly_report` runs over every device before any settings are
read — even though nothing is sent.  This contradicts the claim's "builds no
report text" at this concrete input (one device owned by disabled company 1:
two report lines are built for it). -/
theorem report_text_built_for_disabled_tenant :
    companyLines [some 1] = [(some 1, 2)] ∧
    disabledReportSettings.enabled = false ∧
    hourlyReportTick oneDisabledTenant (fun _ => true) 0 [some 1] = [] :=
  ⟨rfl, rfl, rfl⟩

theorem addReportLine_keys (m : List (Option Nat × Nat)) (cid key : Option Nat) :
    key ∈ (addReportLine m cid).map Prod.fst ↔
      key ∈ m.map Prod.fst ∨ key = cid := by
  induction m with
  | nil => simp [addReportLine, eq_comm]
  | cons hd rest ih =>
    obtain ⟨c, k⟩ := hd
    by_cases hc : c = cid <;> simp [addReportLine, hc, ih] <;> tauto

theorem companyLines_keys_aux (devices : List (Option Nat)) :
    ∀ (m : List (Option Nat × Nat)) (key : Option Nat),
      key ∈ (devices.foldl addReportLine m).map Prod.fst ↔
        key ∈ m.map Prod.fst ∨ key ∈ devices := by
  induction devices with
  | nil => simp
  | cons d rest ih =>
    intro m key
    simp only [List.foldl_cons, ih, addReportLine_keys, List.mem_cons]
    tauto

/-- The companies that get report lines are exactly the companies owning a
device, whether or not their reporting is enabled. -/
theorem companyLines_keys (devices : List (Option Nat)) (key : Option Nat) :
    key ∈ (companyLines devices).map Prod.fst ↔ key ∈ devices := by
  simpa [companyLines] using companyLines_keys_aux devices [] key

/-- C9 (amended): for a company `n+1` with a settings row `st`: a disabled
tenant is skipped by the send loop (no send attempted, stamp untouched) —
though its report lines are still built, see the last conjunct; an enabled
tenant is sent to exactly when the gate `last_report_sent_at = none ∨
now - last ≥ interval·60` holds (interval defaulting to 60 when stored as 0);
the stamp becomes `now` exactly when the send succeeded and is otherwise
unchanged; and report lines are built for every company owning a device,
enabled or not. -/
theorem report_gate_and_stamp (settingsOf : Nat → Option ReportSettings)
    (sendOk : Nat → Bool) (now : Int) (n : Nat) (st : ReportSettings)
    (hset : settingsOf (n + 1) = some st) :
    (st.enabled = false →
      companyReportStep settingsOf sendOk now (some (n + 1)) = none) ∧
    (st.enabled = true → reportGate st now = false →
      companyReportStep settingsOf sendOk now (some (n + 1)) =
        some (n + 1, none, st.lastReportSentAt)) ∧
    (st.enabled = true → reportGate st now = true →
      companyReportStep settingsOf sendOk now (some (n + 1)) =
        some (n + 1, some (sendOk (n + 1)),
          if sendOk (n + 1) = true then some now else st.lastReportSentAt)) ∧
    (reportGate st now = true ↔
      (st.lastReportSentAt = none ∨
        ∃ t, st.lastReportSentAt = some t ∧
          ((if st.reportIntervalMinutes = 0 then 60
            else st.reportIntervalMinutes : Nat) : Int) * 60 ≤ now - t)) ∧
    (∀ devices : List (Option Nat),
      some (n + 1) ∈ (companyLines devices).map Prod.fst ↔
        some (n + 1) ∈ devices) := by
  refine ⟨?_, ?_, ?_, ?_, fun devices => companyLines_keys devices (some (n + 1))⟩
  · intro hoff
    simp [companyReportStep, hset, hoff]
  · intro hon hgate
    simp [companyReportStep, hset, hon, hgate]
  · intro hon hgate
    simp [companyReportStep, hset, hon, hgate]
  · unfold reportGate
    cases hl : st.lastReportSentAt with
    | none => simp
    | some t => simp

/-- An enabled tenant that has never been sent a report. -/
def freshEnabledSettings : ReportSettings :=
  { enabled := true, reportIntervalMinutes := 60, lastReportSentAt := none }

/-- A settings table holding only company 2, enabled and never reported. -/
def oneEnabledTenant : Nat → Option ReportSettings :=
  fun c => if c = 2 then some freshEnabledSettings else none

/-- Witness for C9 (amended) at company 2, enabled, never reported, with a
transport that accepts the message. -/
theorem report_gate_and_stamp_witness :
    oneEnabledTenant (1 + 1) = some freshEnabledSettings ∧
    ((freshEnabledSettings.enabled = false →
      companyReportStep oneEnabledTenant (fun _ => true) 0 (some (1 + 1)) = none) ∧
    (freshEnabledSettings.enabled = true → reportGate freshEnabledSettings 0 = false →
      companyReportStep oneEnabledTenant (fun _ => true) 0 (some (1 + 1)) =
        some (1 + 1, none, freshEnabledSettings.lastReportSentAt)) ∧
    (freshEnabledSettings.enabled = true → reportGate freshEnabledSettings 0 = true →
      companyReportStep oneEnabledTenant (fun _ => true) 0 (some (1 + 1)) =
        some (1 + 1, some ((fun _ => true) (1 + 1)),
          if (fun _ => true) (1 + 1) = true then some 0
          else freshEnabledSettings.lastReportSentAt)) ∧
    (reportGate freshEnabledSettings 0 = true ↔
      (freshEnabledSettings.lastReportSentAt = none ∨
        ∃ t, freshEnabledSettings.lastReportSentAt = some t ∧
          ((if freshEnabledSettings.reportIntervalMinutes = 0 then 60
            else freshEnabledSettings.reportIntervalMinutes : Nat) : Int) * 60 ≤ 0 - t)) ∧
    (∀ devices : List (Option Nat),
      some (1 + 1) ∈ (companyLines devices).map Prod.fst ↔
        some (1 + 1) ∈ devices)) :=
  ⟨rfl, report_gate_and_stamp oneEnabledTenant (fun _ => true) 0 1
    freshEnabledSettings rfl⟩

/-! ### Company Telegram dispatch

Embedding of `send_company_telegram_message` (telegram_utils.py, lines
74-113).  The whole Python body sits inside `try/except` returning `False`;
an exception raised while creating the app context or querying the settings
row is modelled by `LookupOutcome.raised`, and one raised by `requests.post`
by `HttpOutcome.raised`.  Python's falsy test on `bot_token`/`chat_id`
(line 90) is the empty string. -/

structure TgSettings where
  enabled : Bool
  botToken : String
  chatId : String
deriving Repr, DecidableEq

inductive LookupOutcome where
  | found (s : TgSettings)
  | missing
  | raised
deriving Repr, DecidableEq

inductive HttpOutcome where
  | response (ok : Bool)
  | raised
deriving Repr, DecidableEq

/-- `send_company_telegram_message(company_id, text)`: the returned boolean
as a function of the settings lookup and of the HTTP outcome (consulted only
when the guards pass). -/
def sendCompanyTelegramMessage (lookup : LookupOutcome) (http : HttpOutcome) : Bool :=
  match lookup with
  | .raised => false
  | .missing => false
  | .found s =>
    if s.enabled = false then false
    else if s.botToken = "" ∨ s.chatId = "" then false
    else
      match http with
      | .response ok => ok
      | .raised => false

/-- C10: `send_company_telegram_message` always returns a boolean (exceptions
are caught, never propagated — both failure modes are inputs here and the
function is total on them), and it returns true exactly when the settings row
exists, is enabled, holds a non-empty bot token and chat id, and the HTTP
send responded ok; every other path — missing row, disabled, missing
credential, non-OK response, raised exception — returns false. -/
theorem send_company_message_false_on_failure (lookup : LookupOutcome)
    (http : HttpOutcome) :
    (sendCompanyTelegramMessage lookup http = true ∨
      sendCompanyTelegramMessage lookup http = false) ∧
    (sendCompanyTelegramMessage lookup http = true ↔
      ∃ s, lookup = LookupOutcome.found s ∧ s.enabled = true ∧
        s.botToken ≠ "" ∧ s.chatId ≠ "" ∧ http = HttpOutcome.response true) := by
  refine ⟨Bool.eq_false_or_eq_true _, ?_⟩
  cases lookup with
  | raised => simp [sendCompanyTelegramMessage]
  | missing => simp [sendCompanyTelegramMessage]
  | found s =>
    cases hen : s.enabled with
    | false => simp [sendCompanyTelegramMessage, hen]
    | true =>
      by_cases hcred : s.botToken = "" ∨ s.chatId = ""
      · rcases hcred with h | h <;>
          simp [sendCompanyTelegramMessage, hen, h]
      · push_neg at hcred
        cases http with
        | response ok =>
          cases ok <;>
            simp [sendCompanyTelegramMessage, hen, hcred.1, hcred.2]
        | raised =>
          simp [sendCompanyTelegramMessage, hen, hcred.1, hcred.2]

end RouterPortal
